import Mathlib

/-!
Verification of the bounding-box tracking core of libopenshot
(src/src/KeyFrameBBox.h): the `BBox` value type, the time-indexed
bounding-box store `KeyFrameBBox`, its frame-to-time mapper,
interpolation engine and adjustment composer.

Modelling notes.
* C++ `float`/`double` values are embedded as exact rationals (`ℚ`);
  every concrete value appearing in the claims (-1, 0, 1, 5, 10, 20,
  30, 40, 50, 100, ...) is exactly representable in binary floating
  point and the operations involved are exact on them.
* `std::map<double, BBox>` is embedded as an association list
  `List (ℚ × BBox)` kept sorted with strictly increasing keys
  (`mapSorted`), with insert / erase / lookup / bracketing operations
  mirroring the map's semantics.
* `int64_t` frame numbers are embedded as `Int`.
* The bodies of the `KeyFrameBBox` member functions are not part of the
  source tree (only their declarations in KeyFrameBBox.h are); those
  definitions are modelled from the spec and say so in their doc
  comments.  The `BBox` member functions and the const `GetBox`
  overload are implemented inline in the header and are translated
  from that source.
-/

namespace OpenshotBBox

/-- The bounding-box value type (struct `BBox`, KeyFrameBBox.h lines 62-89):
center coordinates, width, height and rotation angle in degrees.
Every field has default initializer `-1`, the blank constructor keeps
those defaults. -/
structure BBox where
  cx : ℚ := -1
  cy : ℚ := -1
  width : ℚ := -1
  height : ℚ := -1
  angle : ℚ := -1
deriving DecidableEq, Repr

/-- The box produced by the blank `BBox()` constructor: all five fields
at their `-1` default initializers.  The spec uses it as the
"unset/invalid" sentinel. -/
def sentinelBox : BBox := {}

/-- `openshot::Fraction` (rational frame rate): numerator and
denominator, as used for the `BaseFps` member. -/
structure Fraction where
  num : Int
  den : Int
deriving DecidableEq, Repr

/-- The rational value `num / den` of a `Fraction`, the frame rate it
denotes. -/
def Fraction.rate (fr : Fraction) : ℚ := (fr.num : ℚ) / (fr.den : ℚ)

/-- An `openshot::Keyframe` adjustment curve, treated as the external
curve-evaluator capability of the spec: a black-box evaluation map
from a frame number to a scalar value. -/
structure Keyframe where
  eval : Int → ℚ

/-- The identity offset / rotation curve: evaluates to 0 everywhere
(the default when the curve has no points). -/
def idOffsetCurve : Keyframe := ⟨fun _ => 0⟩

/-- The identity scale curve: evaluates to 1 everywhere (the default
when the curve has no points). -/
def idScaleCurve : Keyframe := ⟨fun _ => 1⟩

/-- Exact lookup in the time-sample store: the value stored under key
`k`, if any (`std::map::find`). -/
def mapLookup (k : ℚ) : List (ℚ × BBox) → Option BBox
  | [] => none
  | p :: rest => if k = p.1 then some p.2 else mapLookup k rest

/-- Ordered insert-or-overwrite into the time-sample store
(`std::map::operator[]` assignment): inserting at an existing key
replaces the prior sample, otherwise the pair is placed at its sorted
position. -/
def mapInsert (k : ℚ) (v : BBox) : List (ℚ × BBox) → List (ℚ × BBox)
  | [] => [(k, v)]
  | p :: rest =>
    if k < p.1 then (k, v) :: p :: rest
    else if k = p.1 then (k, v) :: rest
    else p :: mapInsert k v rest

/-- Erase the entry stored under key `k`, if present (`std::map::erase`);
keys are unique in a `std::map`, so at most one entry is removed. -/
def mapErase (k : ℚ) : List (ℚ × BBox) → List (ℚ × BBox)
  | [] => []
  | p :: rest => if k = p.1 then rest else p :: mapErase k rest

/-- The entry with the greatest key `≤ t` (the `left` bracketing sample:
nearest sample at or before the target time). -/
def lowerBox (t : ℚ) : List (ℚ × BBox) → Option (ℚ × BBox)
  | [] => none
  | p :: rest =>
    match lowerBox t rest with
    | none => if p.1 ≤ t then some p else none
    | some q => if p.1 ≤ t ∧ q.1 < p.1 then some p else some q

/-- The entry with the least key `≥ t` (the `right` bracketing sample:
nearest sample at or after the target time). -/
def upperBox (t : ℚ) : List (ℚ × BBox) → Option (ℚ × BBox)
  | [] => none
  | p :: rest =>
    match upperBox t rest with
    | none => if t ≤ p.1 then some p else none
    | some q => if t ≤ p.1 ∧ p.1 < q.1 then some p else some q

/-- The `std::map` representation invariant: keys strictly increasing
(hence unique). -/
def mapSorted (l : List (ℚ × BBox)) : Prop :=
  List.Pairwise (fun a b => a.1 < b.1) l

instance (l : List (ℚ × BBox)) : Decidable (mapSorted l) :=
  List.instDecidablePairwise l

/-- The `KeyFrameBBox` tracking-store entity: the time-sample store
`BoxVec`, the recorded base frame rate, the time scale, the visibility
flag and the five adjustment curves (KeyFrameBBox.h lines 157-232). -/
structure KeyFrameBBox where
  visible : Bool
  BaseFps : Fraction
  TimeScale : ℚ
  BoxVec : List (ℚ × BBox)
  delta_x : Keyframe
  delta_y : Keyframe
  scale_x : Keyframe
  scale_y : Keyframe
  rotation : Keyframe

/-- Modelled from the spec: the body of `KeyFrameBBox::FrameNToTime`
(declared KeyFrameBBox.h line 208, implementation not in the source
tree).  Spec 4.1: converts a frame index to the store's time
coordinate as `time = (frame_number / BaseFps_rate) * time_scale`; a
`BaseFps` with zero denominator or zero rate is a configuration error
that fails with an `InvalidState` condition rather than dividing by
zero.  The function is pure, hence deterministic. -/
def FrameNToTime (kf : KeyFrameBBox) (frame_number : Int) (time_scale : ℚ) :
    Except String ℚ :=
  if kf.BaseFps.den = 0 ∨ kf.BaseFps.num = 0 then .error "InvalidState"
  else .ok (((frame_number : ℚ) / kf.BaseFps.rate) * time_scale)

/-- Modelled from the spec: the body of `KeyFrameBBox::AddBox`
(declared KeyFrameBBox.h line 177).  Spec 4.2: computes the time key
via the mapper (at the entity's `TimeScale`) and inserts / overwrites
the sample at that key, last-write-wins. -/
def AddBox (kf : KeyFrameBBox) (frame_num : Int)
    (cx cy width height angle : ℚ) : Except String KeyFrameBBox :=
  (FrameNToTime kf frame_num kf.TimeScale).map fun t =>
    { kf with BoxVec := mapInsert t ⟨cx, cy, width, height, angle⟩ kf.BoxVec }

/-- Modelled from the spec: the body of `KeyFrameBBox::RemoveBox`
(declared KeyFrameBBox.h line 195).  Spec 4.2: computes the same time
key and removes the exact entry if present; no-op (not an error) if
absent. -/
def RemoveBox (kf : KeyFrameBBox) (frame_number : Int) :
    Except String KeyFrameBBox :=
  (FrameNToTime kf frame_number kf.TimeScale).map fun t =>
    { kf with BoxVec := mapErase t kf.BoxVec }

/-- Modelled from the spec: the body of `KeyFrameBBox::Contains`
(declared KeyFrameBBox.h line 189).  Spec 4.2: true iff an exact
sample exists at the mapped time key. -/
def Contains (kf : KeyFrameBBox) (frame_number : Int) : Except String Bool :=
  (FrameNToTime kf frame_number kf.TimeScale).map fun t =>
    (mapLookup t kf.BoxVec).isSome

/-- Modelled from the spec: the body of `KeyFrameBBox::GetLength`
(declared KeyFrameBBox.h line 192).  Spec 4.2: the count of stored
samples. -/
def GetLength (kf : KeyFrameBBox) : Int := kf.BoxVec.length

/-- Modelled from the spec: the body of `KeyFrameBBox::clear` (declared
KeyFrameBBox.h line 214).  Spec 4.2: empties the store; does not
affect curves, BaseFps, or TimeScale. -/
def clear (kf : KeyFrameBBox) : KeyFrameBBox := { kf with BoxVec := [] }

/-- Modelled from the spec: the body of `KeyFrameBBox::InterpolateBoxes`
(declared KeyFrameBBox.h line 211).  Spec 4.3 step 5: independent
linear interpolation of each geometric field with fraction
`f = (target - t1) / (t2 - t1)`; the angle takes the raw linear path,
no shortest-arc wraparound. -/
def InterpolateBoxes (t1 t2 : ℚ) (left right : BBox) (target : ℚ) : BBox :=
  let f : ℚ := (target - t1) / (t2 - t1)
  { cx := left.cx + f * (right.cx - left.cx)
    cy := left.cy + f * (right.cy - left.cy)
    width := left.width + f * (right.width - left.width)
    height := left.height + f * (right.height - left.height)
    angle := left.angle + f * (right.angle - left.angle) }

/-- Modelled from the spec: the adjustment composer (spec 4.4) used by
`GetBox`: evaluates the five curves at the frame number and composes
them onto the base box — translate the center by `(delta_x, delta_y)`,
scale `width`/`height` by `(scale_x, scale_y)`, add `rotation` to
`angle`. -/
def applyCurves (kf : KeyFrameBBox) (frame_number : Int) (b : BBox) : BBox :=
  { cx := b.cx + kf.delta_x.eval frame_number
    cy := b.cy + kf.delta_y.eval frame_number
    width := b.width * kf.scale_x.eval frame_number
    height := b.height * kf.scale_y.eval frame_number
    angle := b.angle + kf.rotation.eval frame_number }

/-- Modelled from the spec: the bracketing-pair branch of `GetBox`
(spec 4.3 step 4): when both bracketing samples exist, a degenerate
interval `t1 = t2` returns `left` directly — interpolation is
undefined there and must not divide by zero — otherwise
`InterpolateBoxes` is called. -/
def bracketBase (t1 : ℚ) (left : BBox) (t2 : ℚ) (right : BBox) (target : ℚ) :
    BBox :=
  if t1 = t2 then left else InterpolateBoxes t1 t2 left right target

/-- Modelled from the spec: the body of the non-const
`KeyFrameBBox::GetBox` (declared KeyFrameBBox.h line 202).  Spec 4.3:
an empty store yields the sentinel box unmodified by curves (the
emptiness check is placed before the frame-to-time conversion, per the
spec's store invariant that every query operation tolerates an empty
store without fault); otherwise the target time is computed, an exact
sample or the bracketing pair supplies the base box (clamping to the
single available sample when the target falls outside the recorded
range), and the adjustment composer is applied to it. -/
def GetBox (kf : KeyFrameBBox) (frame_number : Int) : Except String BBox :=
  if kf.BoxVec = [] then .ok sentinelBox
  else
    (FrameNToTime kf frame_number kf.TimeScale).map fun target =>
      match mapLookup target kf.BoxVec with
      | some b => applyCurves kf frame_number b
      | none =>
        match lowerBox target kf.BoxVec, upperBox target kf.BoxVec with
        | some l, some r =>
          applyCurves kf frame_number (bracketBase l.1 l.2 r.1 r.2 target)
        | some l, none => applyCurves kf frame_number l.2
        | none, some r => applyCurves kf frame_number r.2
        | none, none => sentinelBox

/-- The const overload of `KeyFrameBBox::GetBox` (KeyFrameBBox.h lines
198-201, implemented inline in the header): it delegates to the
non-const overload on the same object via `const_cast`. -/
def GetBoxConst (kf : KeyFrameBBox) (frame_number : Int) : Except String BBox :=
  GetBox kf frame_number

/-- A JSON object as consumed by `BBox::SetJsonValue`: a finite map from
member name to numeric value (the five fields it reads are numeric;
`root[key]` on an absent member yields a null value, modelled by a
failed lookup). -/
def JObj := List (String × ℚ)

/-- Member access `root[key]` followed by the `isNull` test: `some` the
numeric value when the member is present, `none` when it is null. -/
def jGet (root : JObj) (key : String) : Option ℚ :=
  (List.find? (fun p => p.1 == key) root).map (fun p => p.2)

/-- `BBox::SetJsonValue` (KeyFrameBBox.h lines 129-143): for each of the
five recognized members `cx`, `cy`, `width`, `height`, `angle`, if the
member is not null its value is assigned to the corresponding field;
the five conditional assignments each touch a distinct field. -/
def BBox.SetJsonValue (b : BBox) (root : JObj) : BBox :=
  let b1 := match jGet root "cx" with | some v => { b with cx := v } | none => b
  let b2 := match jGet root "cy" with | some v => { b1 with cy := v } | none => b1
  let b3 := match jGet root "width" with | some v => { b2 with width := v } | none => b2
  let b4 := match jGet root "height" with | some v => { b3 with height := v } | none => b3
  match jGet root "angle" with | some v => { b4 with angle := v } | none => b4

/-- `BBox::SetJson` (KeyFrameBBox.h lines 111-126): parses the JSON
string with the external parser `openshot::stringToJson` (the JSON
library is out of scope, so the parser is an abstract argument) and
on success applies `SetJsonValue`; any parsing exception is turned
into an `InvalidJSON` raise.  The C++ method mutates `this` and may
throw, embedded here as (final object, raised condition). -/
def BBox.SetJson (parse : String → Option JObj) (b : BBox) (value : String) :
    BBox × Option String :=
  match parse value with
  | some root => (b.SetJsonValue root, none)
  | none => (b, some "InvalidJSON")

/-! ### Helper lemmas -/

/-- Componentwise description of `SetJsonValue`: each field ends at the
parsed member value when present and keeps its prior value when the
member is null. -/
theorem setJsonValue_eq (b : BBox) (root : JObj) :
    BBox.SetJsonValue b root =
      ⟨(jGet root "cx").getD b.cx, (jGet root "cy").getD b.cy,
       (jGet root "width").getD b.width, (jGet root "height").getD b.height,
       (jGet root "angle").getD b.angle⟩ := by
  simp only [BBox.SetJsonValue]
  cases jGet root "cx" <;> cases jGet root "cy" <;> cases jGet root "width" <;>
    cases jGet root "height" <;> cases jGet root "angle" <;> rfl

/-- A member whose name differs from `key` does not affect `jGet` at
`key`. -/
theorem jGet_cons_ne (k key : String) (v : ℚ) (root : JObj) (h : k ≠ key) :
    jGet ((k, v) :: root) key = jGet root key := by
  have hb : (k == key) = false := beq_eq_false_iff_ne.mpr h
  simp [jGet, List.find?, hb]

/-- Inserting a key always yields a nonempty store. -/
theorem mapInsert_ne_nil (k : ℚ) (v : BBox) (l : List (ℚ × BBox)) :
    mapInsert k v l ≠ [] := by
  cases l with
  | nil => simp [mapInsert]
  | cons p rest =>
    simp only [mapInsert]
    split <;> [simp; skip]
    split <;> simp

/-- Looking up the key just inserted finds the inserted value. -/
theorem mapLookup_mapInsert_self (k : ℚ) (v : BBox) (l : List (ℚ × BBox)) :
    mapLookup k (mapInsert k v l) = some v := by
  induction l with
  | nil => simp [mapInsert, mapLookup]
  | cons p rest ih =>
    simp only [mapInsert]
    by_cases h1 : k < p.1
    · simp [h1, mapLookup]
    · by_cases h2 : k = p.1
      · simp [h1, h2, mapLookup]
      · simp [h1, h2, mapLookup, ih]

/-- Erasing a key that is absent is a no-op. -/
theorem mapErase_of_lookup_none (k : ℚ) (l : List (ℚ × BBox))
    (h : mapLookup k l = none) : mapErase k l = l := by
  induction l with
  | nil => rfl
  | cons p rest ih =>
    simp only [mapLookup] at h
    by_cases hk : k = p.1
    · simp [hk] at h
    · simp [hk] at h
      simp [mapErase, hk, ih h]

/-- Erasing the key just inserted shrinks the store by exactly one
entry. -/
theorem length_mapErase_mapInsert (k : ℚ) (v : BBox) (l : List (ℚ × BBox)) :
    (mapErase k (mapInsert k v l)).length + 1 = (mapInsert k v l).length := by
  induction l with
  | nil => simp [mapInsert, mapErase]
  | cons p rest ih =>
    simp only [mapInsert]
    by_cases h1 : k < p.1
    · simp [h1, mapErase]
    · by_cases h2 : k = p.1
      · simp [h1, h2, mapErase]
      · simp [h1, h2, mapErase, ih]

/-- If every key of the store differs from `k`, the exact lookup of `k`
fails. -/
theorem mapLookup_eq_none_of_forall (k : ℚ) (l : List (ℚ × BBox))
    (h : ∀ p ∈ l, p.1 ≠ k) : mapLookup k l = none := by
  induction l with
  | nil => rfl
  | cons p rest ih =>
    have hp : p.1 ≠ k := h p (List.mem_cons_self p rest)
    have hk : ¬k = p.1 := fun hk => hp hk.symm
    simp [mapLookup, hk, ih fun q hq => h q (List.mem_cons_of_mem p hq)]

/-- In a store with strictly increasing keys, the erased key is gone
afterwards. -/
theorem mapLookup_mapErase_self (k : ℚ) (l : List (ℚ × BBox))
    (hs : mapSorted l) : mapLookup k (mapErase k l) = none := by
  induction l with
  | nil => rfl
  | cons p rest ih =>
    rw [mapSorted, List.pairwise_cons] at hs
    by_cases hk : k = p.1
    · subst hk
      simp only [mapErase, if_pos rfl]
      exact mapLookup_eq_none_of_forall _ _ fun q hq => ne_of_gt (hs.1 q hq)
    · simp [mapErase, hk, mapLookup, ih hs.2]

/-- Every entry of an inserted store is the inserted pair or an original
entry. -/
theorem mem_mapInsert (k : ℚ) (v : BBox) (l : List (ℚ × BBox)) (q : ℚ × BBox)
    (h : q ∈ mapInsert k v l) : q = (k, v) ∨ q ∈ l := by
  induction l with
  | nil => simpa [mapInsert] using h
  | cons p rest ih =>
    simp only [mapInsert] at h
    by_cases h1 : k < p.1
    · rw [if_pos h1, List.mem_cons, List.mem_cons] at h
      rcases h with h | h | h
      · exact Or.inl h
      · exact Or.inr (by simp [h])
      · exact Or.inr (List.mem_cons_of_mem p h)
    · by_cases h2 : k = p.1
      · rw [if_neg h1, if_pos h2, List.mem_cons] at h
        rcases h with h | h
        · exact Or.inl h
        · exact Or.inr (List.mem_cons_of_mem p h)
      · rw [if_neg h1, if_neg h2, List.mem_cons] at h
        rcases h with h | h
        · exact Or.inr (by simp [h])
        · rcases ih h with h | h
          · exact Or.inl h
          · exact Or.inr (List.mem_cons_of_mem p h)

/-- `mapInsert` preserves the strictly-increasing-keys invariant. -/
theorem mapSorted_mapInsert (k : ℚ) (v : BBox) (l : List (ℚ × BBox))
    (hs : mapSorted l) : mapSorted (mapInsert k v l) := by
  induction l with
  | nil => simp [mapInsert, mapSorted]
  | cons p rest ih =>
    rw [mapSorted, List.pairwise_cons] at hs
    simp only [mapInsert]
    by_cases h1 : k < p.1
    · rw [if_pos h1, mapSorted, List.pairwise_cons]
      refine ⟨?_, List.pairwise_cons.mpr hs⟩
      intro q hq
      rw [List.mem_cons] at hq
      rcases hq with rfl | hq
      · exact h1
      · exact h1.trans (hs.1 q hq)
    · by_cases h2 : k = p.1
      · rw [if_neg h1, if_pos h2, mapSorted, List.pairwise_cons]
        exact ⟨fun q hq => h2 ▸ hs.1 q hq, hs.2⟩
      · rw [if_neg h1, if_neg h2, mapSorted, List.pairwise_cons]
        refine ⟨?_, ih hs.2⟩
        intro q hq
        rcases mem_mapInsert k v rest q hq with rfl | hq
        · exact lt_of_le_of_ne (not_lt.mp h1) (Ne.symm h2)
        · exact hs.1 q hq

instance {ε α : Type} [DecidableEq ε] [DecidableEq α] :
    DecidableEq (Except ε α) := fun a b =>
  match a, b with
  | .error x, .error y =>
    if h : x = y then .isTrue (by rw [h])
    else .isFalse fun hc => h (by injection hc)
  | .ok x, .ok y =>
    if h : x = y then .isTrue (by rw [h])
    else .isFalse fun hc => h (by injection hc)
  | .error _, .ok _ => .isFalse fun hc => Except.noConfusion hc
  | .ok _, .error _ => .isFalse fun hc => Except.noConfusion hc

/-! ### Concrete demo states -/

/-- A state with an empty store, a well-formed frame rate and
deliberately non-identity curves (used to exhibit that the sentinel is
returned with no curve modification). -/
def emptyKF : KeyFrameBBox :=
  { visible := true, BaseFps := ⟨30, 1⟩, TimeScale := 1, BoxVec := []
    delta_x := ⟨fun _ => 7⟩, delta_y := ⟨fun _ => 8⟩
    scale_x := ⟨fun _ => 2⟩, scale_y := ⟨fun _ => 3⟩
    rotation := ⟨fun _ => 90⟩ }

/-- A state whose `BaseFps` has zero denominator: the degenerate
configuration of spec 4.1. -/
def zeroFpsKF : KeyFrameBBox := { emptyKF with BaseFps := ⟨5, 0⟩ }

/-- A state with identity curves, unit base frame rate and unit time
scale, so frame `n` maps to time `n`. -/
def identKF : KeyFrameBBox :=
  { visible := true, BaseFps := ⟨1, 1⟩, TimeScale := 1, BoxVec := []
    delta_x := idOffsetCurve, delta_y := idOffsetCurve
    scale_x := idScaleCurve, scale_y := idScaleCurve
    rotation := idOffsetCurve }

/-! ### Claim theorems -/

/-- C1: for every frame number, when the time-sample store `BoxVec` is
empty, `GetBox` returns the sentinel box with
`cx = cy = width = height = angle = -1`, with no adjustment-curve
modification applied to it (the curves of `kf` are arbitrary, and the
result does not depend on them). -/
theorem C1_getBox_empty_sentinel (kf : KeyFrameBBox) (frame_number : Int)
    (h : kf.BoxVec = []) :
    GetBox kf frame_number = .ok ⟨-1, -1, -1, -1, -1⟩ := by
  simp [GetBox, h, sentinelBox]

/-- Witness for C1: the empty-store state with non-identity curves
still yields the raw sentinel. -/
theorem C1_getBox_empty_sentinel_witness :
    GetBox emptyKF 7 = .ok ⟨-1, -1, -1, -1, -1⟩ :=
  C1_getBox_empty_sentinel emptyKF 7 rfl

/-- C4: when both bracketing samples exist with equal time keys
`t1 = t2`, the bracketing step of `GetBox` returns the left sample
directly as the base box — the interpolation fraction
`(target - t1) / (t2 - t1)` is never evaluated, so no division by
zero occurs in the interpolation path (the result is `left` for every
`target` and `right` whatsoever). -/
theorem C4_bracket_degenerate (t1 t2 : ℚ) (left right : BBox) (target : ℚ)
    (h : t1 = t2) : bracketBase t1 left t2 right target = left := by
  simp [bracketBase, h]

/-- Witness for C4 at a concrete degenerate interval. -/
theorem C4_bracket_degenerate_witness :
    bracketBase 3 ⟨1, 2, 3, 4, 5⟩ 3 ⟨9, 9, 9, 9, 9⟩ 7 = ⟨1, 2, 3, 4, 5⟩ :=
  C4_bracket_degenerate 3 3 ⟨1, 2, 3, 4, 5⟩ ⟨9, 9, 9, 9, 9⟩ 7 rfl

/-- C5: `FrameNToTime` fails with the `InvalidState` condition whenever
`BaseFps` has a zero denominator or a zero rate (zero numerator), and
otherwise purely returns `(frame_number / BaseFps rate) * time_scale`
(as a Lean function it is deterministic by construction). -/
theorem C5_frameNToTime (kf : KeyFrameBBox) (f : Int) (ts : ℚ) :
    (kf.BaseFps.den = 0 ∨ kf.BaseFps.num = 0 →
      FrameNToTime kf f ts = .error "InvalidState") ∧
    (kf.BaseFps.den ≠ 0 → kf.BaseFps.num ≠ 0 →
      FrameNToTime kf f ts = .ok (((f : ℚ) / kf.BaseFps.rate) * ts)) := by
  refine ⟨fun h => ?_, fun h1 h2 => ?_⟩
  · simp [FrameNToTime, h]
  · simp [FrameNToTime, h1, h2]

/-- Witness for C5: a zero-denominator state fails, the unit-rate state
maps frame 3 at time scale 2 to time 6. -/
theorem C5_frameNToTime_witness :
    FrameNToTime zeroFpsKF 3 2 = .error "InvalidState" ∧
    FrameNToTime identKF 3 2 = .ok 6 := by
  refine ⟨(C5_frameNToTime zeroFpsKF 3 2).1 (Or.inl rfl), ?_⟩
  have h := (C5_frameNToTime identKF 3 2).2 (by decide) (by decide)
  rw [h]
  norm_num [identKF, Fraction.rate]

/-- C6: for every prior store content, `clear` drives `GetLength` to 0
and leaves the five adjustment curves, `BaseFps` and `TimeScale`
unchanged. -/
theorem C6_clear (kf : KeyFrameBBox) :
    GetLength (clear kf) = 0 ∧
    (clear kf).delta_x = kf.delta_x ∧ (clear kf).delta_y = kf.delta_y ∧
    (clear kf).scale_x = kf.scale_x ∧ (clear kf).scale_y = kf.scale_y ∧
    (clear kf).rotation = kf.rotation ∧
    (clear kf).BaseFps = kf.BaseFps ∧ (clear kf).TimeScale = kf.TimeScale :=
  ⟨rfl, rfl, rfl, rfl, rfl, rfl, rfl, rfl⟩

/-- C8: `BBox::SetJsonValue` leaves each recognized field at its current
value when the corresponding member is absent (null) in the input, and
ignores members under unrecognized names entirely. -/
theorem C8_setJsonValue (b : BBox) (root : JObj) :
    (jGet root "cx" = none → (b.SetJsonValue root).cx = b.cx) ∧
    (jGet root "cy" = none → (b.SetJsonValue root).cy = b.cy) ∧
    (jGet root "width" = none → (b.SetJsonValue root).width = b.width) ∧
    (jGet root "height" = none → (b.SetJsonValue root).height = b.height) ∧
    (jGet root "angle" = none → (b.SetJsonValue root).angle = b.angle) ∧
    (∀ k v, k ≠ "cx" → k ≠ "cy" → k ≠ "width" → k ≠ "height" → k ≠ "angle" →
      b.SetJsonValue ((k, v) :: root) = b.SetJsonValue root) := by
  refine ⟨fun h => ?_, fun h => ?_, fun h => ?_, fun h => ?_, fun h => ?_,
    fun k v h1 h2 h3 h4 h5 => ?_⟩
  · simp [setJsonValue_eq, h]
  · simp [setJsonValue_eq, h]
  · simp [setJsonValue_eq, h]
  · simp [setJsonValue_eq, h]
  · simp [setJsonValue_eq, h]
  · rw [setJsonValue_eq, setJsonValue_eq,
      jGet_cons_ne k "cx" v root h1, jGet_cons_ne k "cy" v root h2,
      jGet_cons_ne k "width" v root h3, jGet_cons_ne k "height" v root h4,
      jGet_cons_ne k "angle" v root h5]

/-- Witness for C8: an input holding only an unknown member changes no
field, and prepending another unknown member changes nothing. -/
theorem C8_setJsonValue_witness :
    (BBox.SetJsonValue ⟨1, 2, 3, 4, 5⟩ [("zzz", 9)]).cx = 1 ∧
    BBox.SetJsonValue ⟨1, 2, 3, 4, 5⟩ [("zzz", 9)] =
      BBox.SetJsonValue ⟨1, 2, 3, 4, 5⟩ [] :=
  ⟨(C8_setJsonValue ⟨1, 2, 3, 4, 5⟩ [("zzz", 9)]).1 (by decide),
   (C8_setJsonValue ⟨1, 2, 3, 4, 5⟩ []).2.2.2.2.2 "zzz" 9 (by decide)
     (by decide) (by decide) (by decide) (by decide)⟩

/-- C9: a JSON string the parser rejects makes `BBox::SetJson` raise the
`InvalidJSON` condition, and no field of the box is mutated (parsing
happens before any assignment, so the failure point precedes every
field update). -/
theorem C9_setJson_malformed (parse : String → Option JObj) (b : BBox)
    (s : String) (h : parse s = none) :
    BBox.SetJson parse b s = (b, some "InvalidJSON") := by
  simp [BBox.SetJson, h]

/-- A parser that rejects every string (stand-in for
`openshot::stringToJson` on malformed input). -/
def rejectAll : String → Option JObj := fun _ => none

/-- Witness for C9 on a concrete box and rejected string. -/
theorem C9_setJson_malformed_witness :
    BBox.SetJson rejectAll ⟨1, 2, 3, 4, 5⟩ "not json" =
      (⟨1, 2, 3, 4, 5⟩, some "InvalidJSON") :=
  C9_setJson_malformed rejectAll ⟨1, 2, 3, 4, 5⟩ "not json" rfl

/-- C2: for every frame `f` and every state with a well-formed frame
rate whose five adjustment curves evaluate to their identity defaults
at `f` (0 offsets, 1 scales, 0 rotation), `AddBox f 10 20 30 40 0`
followed by `GetBox f` returns exactly `(10, 20, 30, 40, 0)`. -/
theorem C2_addBox_getBox (kf : KeyFrameBBox) (f : Int)
    (hden : kf.BaseFps.den ≠ 0) (hnum : kf.BaseFps.num ≠ 0)
    (hdx : kf.delta_x.eval f = 0) (hdy : kf.delta_y.eval f = 0)
    (hsx : kf.scale_x.eval f = 1) (hsy : kf.scale_y.eval f = 1)
    (hrot : kf.rotation.eval f = 0) :
    ∃ kf1, AddBox kf f 10 20 30 40 0 = .ok kf1 ∧
      GetBox kf1 f = .ok ⟨10, 20, 30, 40, 0⟩ := by
  refine ⟨{ kf with BoxVec := (mapInsert ((f : ℚ) / kf.BaseFps.rate * kf.TimeScale)
    ⟨10, 20, 30, 40, 0⟩ kf.BoxVec) }, ?_, ?_⟩
  · simp [AddBox, FrameNToTime, hden, hnum, Except.map]
  · have hne := mapInsert_ne_nil ((f : ℚ) / kf.BaseFps.rate * kf.TimeScale)
      ⟨10, 20, 30, 40, 0⟩ kf.BoxVec
    simp [GetBox, hne, FrameNToTime, hden, hnum, Except.map,
          mapLookup_mapInsert_self, applyCurves, hdx, hdy, hsx, hsy, hrot]

/-- Witness for C2 on the identity-curve demo state at frame 4. -/
theorem C2_addBox_getBox_witness :
    ∃ kf1, AddBox identKF 4 10 20 30 40 0 = .ok kf1 ∧
      GetBox kf1 4 = .ok ⟨10, 20, 30, 40, 0⟩ :=
  C2_addBox_getBox identKF 4 (by decide) (by decide) rfl rfl rfl rfl rfl

/-- The spec's midpoint scenario: identity curves, unit base frame rate
and unit time scale, a sample at frame 0 and a sample at frame 10.
The angles 350 and 10 exhibit the raw linear path: their midpoint is
180, where a shortest-arc rule would give 0. -/
def midKF : KeyFrameBBox :=
  { identKF with
    BoxVec := [(0, ⟨0, 0, 10, 10, 350⟩), (10, ⟨100, 50, 30, 20, 10⟩)] }

/-- C3: `InterpolateBoxes` linearly interpolates every geometric field
independently with the fraction `f = (target - t1) / (t2 - t1)` —
including the angle, along the raw linear path with no shortest-arc
wraparound — and in the concrete midpoint scenario (samples `cx = 0`
at frame 0 and `cx = 100` at frame 10, identity curves, linear
frame-to-time mapping) `GetBox 5` has `cx = 50`; its angle is the raw
midpoint 180 of 350 and 10. -/
theorem C3_interpolateBoxes_linear (t1 t2 : ℚ) (left right : BBox)
    (target : ℚ) :
    InterpolateBoxes t1 t2 left right target =
      { cx := left.cx + (target - t1) / (t2 - t1) * (right.cx - left.cx)
        cy := left.cy + (target - t1) / (t2 - t1) * (right.cy - left.cy)
        width := left.width + (target - t1) / (t2 - t1) * (right.width - left.width)
        height := left.height + (target - t1) / (t2 - t1) * (right.height - left.height)
        angle := left.angle + (target - t1) / (t2 - t1) * (right.angle - left.angle) } ∧
    GetBox midKF 5 = .ok ⟨50, 25, 20, 15, 180⟩ := by
  refine ⟨rfl, ?_⟩
  norm_num [GetBox, midKF, identKF, FrameNToTime, Fraction.rate, mapLookup,
    lowerBox, upperBox, bracketBase, InterpolateBoxes, applyCurves,
    idOffsetCurve, idScaleCurve, Except.map]
  exact fun hnil => absurd hnil (by simp)

/-- C7: for every state with strictly increasing store keys and a
well-formed frame rate, `AddBox` at frame `f` followed by `RemoveBox`
at `f` makes `Contains f` false and shrinks `GetLength` by exactly
one; and `RemoveBox` on a frame with no exact stored sample is a
no-op, not an error. -/
theorem C7_addBox_removeBox (kf : KeyFrameBBox) (f : Int) (cx cy w h a : ℚ)
    (hden : kf.BaseFps.den ≠ 0) (hnum : kf.BaseFps.num ≠ 0)
    (hs : mapSorted kf.BoxVec) :
    (∃ kf1, AddBox kf f cx cy w h a = .ok kf1 ∧
      ∃ kf2, RemoveBox kf1 f = .ok kf2 ∧
        Contains kf2 f = .ok false ∧ GetLength kf2 + 1 = GetLength kf1) ∧
    (∀ kf3 : KeyFrameBBox, Contains kf3 f = .ok false →
      RemoveBox kf3 f = .ok kf3) := by
  constructor
  · refine ⟨{ kf with BoxVec := (mapInsert ((f : ℚ) / kf.BaseFps.rate * kf.TimeScale)
        ⟨cx, cy, w, h, a⟩ kf.BoxVec) }, ?_,
      { kf with BoxVec := (mapErase ((f : ℚ) / kf.BaseFps.rate * kf.TimeScale)
        (mapInsert ((f : ℚ) / kf.BaseFps.rate * kf.TimeScale)
          ⟨cx, cy, w, h, a⟩ kf.BoxVec)) }, ?_, ?_, ?_⟩
    · simp [AddBox, FrameNToTime, hden, hnum, Except.map]
    · simp [RemoveBox, FrameNToTime, hden, hnum, Except.map]
    · have hnone := mapLookup_mapErase_self
        ((f : ℚ) / kf.BaseFps.rate * kf.TimeScale)
        (mapInsert ((f : ℚ) / kf.BaseFps.rate * kf.TimeScale)
          ⟨cx, cy, w, h, a⟩ kf.BoxVec)
        (mapSorted_mapInsert _ ⟨cx, cy, w, h, a⟩ _ hs)
      simp [Contains, FrameNToTime, hden, hnum, Except.map, hnone]
    · have hlen := length_mapErase_mapInsert
        ((f : ℚ) / kf.BaseFps.rate * kf.TimeScale) ⟨cx, cy, w, h, a⟩ kf.BoxVec
      simp only [GetLength]
      exact_mod_cast hlen
  · intro kf3 hc
    by_cases hv : kf3.BaseFps.den = 0 ∨ kf3.BaseFps.num = 0
    · simp [Contains, FrameNToTime, hv, Except.map] at hc
    · push_neg at hv
      simp [Contains, FrameNToTime, hv.1, hv.2, Except.map] at hc
      cases hlk : mapLookup ((f : ℚ) / kf3.BaseFps.rate * kf3.TimeScale)
          kf3.BoxVec with
      | some v => rw [hlk] at hc; simp at hc
      | none =>
        simp [RemoveBox, FrameNToTime, hv.1, hv.2, Except.map,
              mapErase_of_lookup_none _ _ hlk]

/-- Witness for C7 on the identity-curve demo state at frame 2. -/
theorem C7_addBox_removeBox_witness :
    (∃ kf1, AddBox identKF 2 1 2 3 4 5 = .ok kf1 ∧
      ∃ kf2, RemoveBox kf1 2 = .ok kf2 ∧
        Contains kf2 2 = .ok false ∧ GetLength kf2 + 1 = GetLength kf1) ∧
    (∀ kf3 : KeyFrameBBox, Contains kf3 2 = .ok false →
      RemoveBox kf3 2 = .ok kf3) :=
  C7_addBox_removeBox identKF 2 1 2 3 4 5 (by decide) (by decide) (by decide)

/-- C10: the const overload of `GetBox` merely delegates to the
non-const overload on the same object, so the two query paths return
the same box for every state and frame number. -/
theorem C10_getBoxConst_eq (kf : KeyFrameBBox) (frame_number : Int) :
    GetBoxConst kf frame_number = GetBox kf frame_number := rfl

end OpenshotBBox
